import Mathlib

/-!
Shallow embedding of `hotel_merger.py` (Ascenda-Crawl-Data).

Dynamic (JSON-like) Python values are modelled by `PyVal`; Python `str()`
rendering is modelled by `pyStr`/`pyRepr`; the service operations
`merge_value`, `merge_and_save` and `find` and the three supplier
`parse` functions are translated directly from the source.  Numeric raw
values are modelled as integers, since no property under study depends on
fractional rendering.
-/

/-- Single-quote character (codepoint 39), used by the Python-style string
renderer. -/
def squote : Char := Char.ofNat 39

/-- Double-quote character (codepoint 34). -/
def dquote : Char := Char.ofNat 34

/-- Values of the dynamic data model the Python program manipulates: `None`,
strings, numbers, lists, string-keyed dicts (raw provider records), and
`Image` dataclass instances (whose two fields hold raw values). -/
inductive PyVal : Type where
  | pynone : PyVal
  | pystr (s : String) : PyVal
  | pynum (n : Int) : PyVal
  | pylist (xs : List PyVal) : PyVal
  | pydict (es : List (String × PyVal)) : PyVal
  | pyimage (link descr : PyVal) : PyVal

mutual
/-- Boolean structural equality on `PyVal` (Python `==` on these shapes). -/
def pyBeq : PyVal → PyVal → Bool
  | .pynone, .pynone => true
  | .pystr s, .pystr t => s == t
  | .pynum m, .pynum n => m == n
  | .pylist xs, .pylist ys => pyBeqList xs ys
  | .pydict es, .pydict fs => pyBeqDict es fs
  | .pyimage l1 d1, .pyimage l2 d2 => pyBeq l1 l2 && pyBeq d1 d2
  | _, _ => false

/-- Elementwise `pyBeq` on lists. -/
def pyBeqList : List PyVal → List PyVal → Bool
  | [], [] => true
  | x :: xs, y :: ys => pyBeq x y && pyBeqList xs ys
  | _, _ => false

/-- Entrywise `pyBeq` on dict entry lists. -/
def pyBeqDict : List (String × PyVal) → List (String × PyVal) → Bool
  | [], [] => true
  | (k1, v1) :: es, (k2, v2) :: fs => k1 == k2 && pyBeq v1 v2 && pyBeqDict es fs
  | _, _ => false
end

mutual
/-- Correctness of `pyBeq`: it decides propositional equality. -/
def pyBeq_iff : ∀ a b, pyBeq a b = true ↔ a = b
  | .pynone, b => by cases b <;> simp [pyBeq]
  | .pystr s, b => by cases b <;> simp [pyBeq]
  | .pynum m, b => by cases b <;> simp [pyBeq]
  | .pylist xs, b => by
      cases b <;> simp [pyBeq]
      exact pyBeqList_iff xs _
  | .pydict es, b => by
      cases b <;> simp [pyBeq]
      exact pyBeqDict_iff es _
  | .pyimage l1 d1, b => by
      cases b <;> simp [pyBeq]
      rename_i l2 d2
      rw [pyBeq_iff l1 l2, pyBeq_iff d1 d2]

/-- Correctness of `pyBeqList`. -/
def pyBeqList_iff : ∀ xs ys, pyBeqList xs ys = true ↔ xs = ys
  | [], ys => by cases ys <;> simp [pyBeqList]
  | x :: xs, ys => by
      cases ys <;> simp [pyBeqList]
      rw [pyBeq_iff, pyBeqList_iff]

/-- Correctness of `pyBeqDict`. -/
def pyBeqDict_iff : ∀ es fs, pyBeqDict es fs = true ↔ es = fs
  | [], fs => by cases fs <;> simp [pyBeqDict]
  | (k1, v1) :: es, fs => by
      cases fs with
      | nil => simp [pyBeqDict]
      | cons p fs2 =>
        obtain ⟨k2, v2⟩ := p
        simp only [pyBeqDict, Bool.and_eq_true, beq_iff_eq, List.cons.injEq,
          Prod.mk.injEq]
        rw [pyBeq_iff v1 v2, pyBeqDict_iff es fs2]
end

instance : DecidableEq PyVal := fun a b => decidable_of_iff (pyBeq a b = true) (pyBeq_iff a b)

/-- Escape backslashes and the chosen quote character, as Python repr does
for the printable strings handled here. -/
def escChars (q : Char) : List Char → List Char
  | [] => []
  | c :: cs =>
    (if c = '\\' then ['\\', '\\'] else if c = q then ['\\', c] else [c]) ++ escChars q cs

/-- Python repr of a string: single-quoted by default, double-quoted when the
string holds a single quote and no double quote. -/
def pyReprStr (s : String) : String :=
  let q := if s.data.contains squote && !(s.data.contains dquote) then dquote else squote
  String.mk (q :: (escChars q s.data ++ [q]))

/-- Decimal digits accumulator; the fuel argument bounds recursion depth and
is always supplied large enough. -/
def natDigitsAux : Nat → Nat → List Char → List Char
  | 0, _, acc => acc
  | fuel + 1, n, acc =>
    let acc2 := Nat.digitChar (n % 10) :: acc
    if n / 10 = 0 then acc2 else natDigitsAux fuel (n / 10) acc2

/-- Decimal rendering of a natural number, as Python `str` renders it. -/
def natStr (n : Nat) : String := String.mk (natDigitsAux (n + 1) n [])

/-- Decimal rendering of an integer, as Python `str` renders it. -/
def intStr : Int → String
  | Int.ofNat m => natStr m
  | Int.negSucc m => "-" ++ natStr (m + 1)

mutual
/-- Python `repr` of a value: `None`, quoted strings, decimal numbers,
bracketed lists, braced dicts, and the dataclass rendering of `Image`. -/
def pyRepr : PyVal → String
  | .pynone => "None"
  | .pystr s => pyReprStr s
  | .pynum n => intStr n
  | .pylist xs => "[" ++ pyReprSeq xs ++ "]"
  | .pydict es => "\x7b" ++ pyReprDict es ++ "\x7d"
  | .pyimage l d => "Image(link=" ++ pyRepr l ++ ", description=" ++ pyRepr d ++ ")"

/-- Comma-separated reprs of list elements. -/
def pyReprSeq : List PyVal → String
  | [] => ""
  | [v] => pyRepr v
  | v :: w :: vs => pyRepr v ++ ", " ++ pyReprSeq (w :: vs)

/-- Comma-separated `key: value` reprs of dict entries. -/
def pyReprDict : List (String × PyVal) → String
  | [] => ""
  | [(k, v)] => pyReprStr k ++ ": " ++ pyRepr v
  | (k, v) :: e :: es => pyReprStr k ++ ": " ++ pyRepr v ++ ", " ++ pyReprDict (e :: es)
end

/-- Python `str` of a value: the string itself for strings, `repr` otherwise
(which matches `str` on every non-string shape used here). -/
def pyStr : PyVal → String
  | .pystr s => s
  | v => pyRepr v

/-- Field merge rule, translated from `HotelsService.merge_value`: `None`
loses to any value; between two non-`None` values the one whose `str`
rendering is longer wins, ties keeping the first (accumulator) argument. -/
def merge_value (value1 value2 : PyVal) : PyVal :=
  if value1 = PyVal.pynone ∧ value2 = PyVal.pynone then PyVal.pynone
  else if value1 = PyVal.pynone then value2
  else if value2 = PyVal.pynone then value1
  else if (pyStr value1).length ≥ (pyStr value2).length then value1 else value2

/-- The field merge rule as the specification words it: absent when both
absent, the present one when exactly one is absent, otherwise whichever
value has the longer rendered text, ties keeping `a`.  Written from the
spec text, to be compared with `merge_value` (refinement claim C1). -/
def mergeValueSpec (a b : PyVal) : PyVal :=
  if a = PyVal.pynone ∧ b = PyVal.pynone then PyVal.pynone
  else if a = PyVal.pynone then b
  else if b = PyVal.pynone then a
  else if (pyStr b).length > (pyStr a).length then b else a

/-- Kinds of canonical-record fields: string-valued, numeric-valued and
list-valued. -/
inductive FieldKind : Type where
  | strF : FieldKind
  | numF : FieldKind
  | listF : FieldKind
  deriving DecidableEq

/-- A value that counts as absent (null or empty-equivalent) for a field of
the given kind. -/
def absentVal : FieldKind → PyVal → Bool
  | _, PyVal.pynone => true
  | FieldKind.strF, PyVal.pystr s => s == ""
  | FieldKind.numF, PyVal.pystr s => s == ""
  | FieldKind.listF, PyVal.pylist xs => xs.isEmpty
  | _, _ => false

/-- A well-typed present (non-absent) value for a field of the given kind. -/
def presentVal : FieldKind → PyVal → Bool
  | FieldKind.strF, PyVal.pystr s => !(s == "")
  | FieldKind.numF, PyVal.pynum _ => true
  | FieldKind.listF, PyVal.pylist xs => !xs.isEmpty
  | _, _ => false

/-- Canonical `Location`, translated from the `Location` dataclass; field
values are raw provider values. -/
structure Location where
  lat : PyVal
  lng : PyVal
  address : PyVal
  city : PyVal
  country : PyVal
  deriving DecidableEq

/-- Canonical `Amenities`, translated from the `Amenities` dataclass. -/
structure Amenities where
  general : PyVal
  room : PyVal
  deriving DecidableEq

/-- Canonical `Images`, translated from the `Images` dataclass; each slot
holds a (list) value of `Image` renderings. -/
structure Images where
  rooms : PyVal
  site : PyVal
  amenities : PyVal
  deriving DecidableEq

/-- Canonical `Hotel`, translated from the `Hotel` dataclass. -/
structure Hotel where
  id : PyVal
  destination_id : PyVal
  name : PyVal
  description : PyVal
  location : Location
  amenities : Amenities
  images : Images
  booking_conditions : PyVal
  deriving DecidableEq

/-- Fold of an incoming hotel into the accumulator, translated from the
in-place field mutations of `HotelsService.merge_and_save` (one sequential
update per canonical field, in source order). -/
def mergeHotel (existing hotel : Hotel) : Hotel :=
  let e1 := { existing with name := merge_value existing.name hotel.name }
  let e2 := { e1 with description := merge_value e1.description hotel.description }
  let e3 := { e2 with location := { e2.location with lat := merge_value e2.location.lat hotel.location.lat } }
  let e4 := { e3 with location := { e3.location with lng := merge_value e3.location.lng hotel.location.lng } }
  let e5 := { e4 with location := { e4.location with address := merge_value e4.location.address hotel.location.address } }
  let e6 := { e5 with location := { e5.location with city := merge_value e5.location.city hotel.location.city } }
  let e7 := { e6 with location := { e6.location with country := merge_value e6.location.country hotel.location.country } }
  let e8 := { e7 with amenities := { e7.amenities with general := merge_value e7.amenities.general hotel.amenities.general } }
  let e9 := { e8 with amenities := { e8.amenities with room := merge_value e8.amenities.room hotel.amenities.room } }
  let e10 := { e9 with images := { e9.images with rooms := merge_value e9.images.rooms hotel.images.rooms } }
  let e11 := { e10 with images := { e10.images with site := merge_value e10.images.site hotel.images.site } }
  let e12 := { e11 with images := { e11.images with amenities := merge_value e11.images.amenities hotel.images.amenities } }
  { e12 with booking_conditions := merge_value e12.booking_conditions hotel.booking_conditions }

/-- Merge key of a hotel: the `(id, destination_id)` pair. -/
def mergeKey (h : Hotel) : PyVal × PyVal := (h.id, h.destination_id)

/-- Lookup in the ordered key-to-accumulator mapping (Python dict access). -/
def mhLookup : List ((PyVal × PyVal) × Hotel) → (PyVal × PyVal) → Option Hotel
  | [], _ => none
  | (k, v) :: rest, key => if k = key then some v else mhLookup rest key

/-- In-place value replacement at a key (Python dict entry mutation keeps
the entry position). -/
def mhUpdate : List ((PyVal × PyVal) × Hotel) → (PyVal × PyVal) → Hotel → List ((PyVal × PyVal) × Hotel)
  | [], _, _ => []
  | (k, v) :: rest, key, h => if k = key then (k, h) :: rest else (k, v) :: mhUpdate rest key h

/-- One iteration of the loop body of `merge_and_save`: first-seen hotels
are appended, later hotels with a known key are folded into the stored
accumulator. -/
def mergeStep (m : List ((PyVal × PyVal) × Hotel)) (hotel : Hotel) : List ((PyVal × PyVal) × Hotel) :=
  match mhLookup m (mergeKey hotel) with
  | none => m ++ [(mergeKey hotel, hotel)]
  | some existing => mhUpdate m (mergeKey hotel) (mergeHotel existing hotel)

/-- Translated from `HotelsService.merge_and_save`: fold every incoming
hotel through `mergeStep` and keep the dict values in insertion order. -/
def merge_and_save (hotels : List Hotel) : List Hotel :=
  (hotels.foldl mergeStep []).map Prod.snd

/-- Python `str.split` with a one-character separator: always returns at
least one (possibly empty) piece, with no trimming. -/
def pySplit (sep : Char) : List Char → List (List Char)
  | [] => [[]]
  | c :: rest =>
    if c = sep then [] :: pySplit sep rest
    else
      match pySplit sep rest with
      | [] => [[c]]
      | t :: ts => (c :: t) :: ts

/-- Filter-input parsing step of `HotelsService.find`: the literal sentinel
`none` maps to the empty list, anything else is split on commas. -/
def parseIds (s : String) : List String :=
  if s = "none" then [] else (pySplit ',' s.data).map String.mk

/-- Translated from `HotelsService.find`, with the catalog passed
explicitly: if either parsed list is empty return the whole catalog,
otherwise keep the hotels whose rendered `id` and `destination_id` are
members of the respective lists. -/
def find (data : List Hotel) (hotel_ids destination_ids : String) : List Hotel :=
  let hids := parseIds hotel_ids
  let dids := parseIds destination_ids
  if hids.length = 0 ∨ dids.length = 0 then data
  else data.filter (fun hotel => decide (pyStr hotel.id ∈ hids ∧ pyStr hotel.destination_id ∈ dids))

/-- Errors the Python interpreter raises while a parser runs: a `KeyError`
carrying only the missing key, or a `TypeError` for a non-dict/non-list
shape.  No other failure data exists in the source. -/
inductive PyError : Type where
  | keyError (missingKey : String) : PyError
  | typeError : PyError
  deriving DecidableEq

/-- Lookup of a key among dict entries. -/
def lookupKey : List (String × PyVal) → String → Option PyVal
  | [], _ => none
  | (k, v) :: rest, key => if k = key then some v else lookupKey rest key

/-- Python subscript `v[key]`: a `KeyError` when the key is missing, a
`TypeError` when `v` is not a dict. -/
def dictGet (v : PyVal) (key : String) : Except PyError PyVal :=
  match v with
  | PyVal.pydict es =>
    match lookupKey es key with
    | some x => Except.ok x
    | none => Except.error (PyError.keyError key)
  | _ => Except.error PyError.typeError

/-- Python iteration over a value: only lists are iterable here. -/
def pyIter (v : PyVal) : Except PyError (List PyVal) :=
  match v with
  | PyVal.pylist xs => Except.ok xs
  | _ => Except.error PyError.typeError

/-- One comprehension item `Image(link=item[linkKey], description=item[descKey])`. -/
def parseImage (linkKey descKey : String) (item : PyVal) : Except PyError PyVal := do
  let l ← dictGet item linkKey
  let d ← dictGet item descKey
  pure (PyVal.pyimage l d)

/-- Translated from `Acme.parse`; raw-record subscripts run in the Python
argument evaluation order. -/
def Acme.parse (dto : PyVal) : Except PyError Hotel := do
  let i ← dictGet dto "Id"
  let d ← dictGet dto "DestinationId"
  let n ← dictGet dto "Name"
  let desc ← dictGet dto "Description"
  let lat ← dictGet dto "Latitude"
  let lng ← dictGet dto "Longitude"
  let addr ← dictGet dto "Address"
  let city ← dictGet dto "City"
  let country ← dictGet dto "Country"
  let fac ← dictGet dto "Facilities"
  pure
    { id := i
      destination_id := d
      name := n
      description := desc
      location := { lat := lat, lng := lng, address := addr, city := city, country := country }
      amenities := { general := fac, room := PyVal.pylist [] }
      images := { rooms := PyVal.pylist [], site := PyVal.pylist [], amenities := PyVal.pylist [] }
      booking_conditions := PyVal.pylist [] }

/-- Translated from `Patagonia.parse`. -/
def Patagonia.parse (dto : PyVal) : Except PyError Hotel := do
  let i ← dictGet dto "id"
  let d ← dictGet dto "destination"
  let n ← dictGet dto "name"
  let info ← dictGet dto "info"
  let lat ← dictGet dto "lat"
  let lng ← dictGet dto "lng"
  let addr ← dictGet dto "address"
  let amen ← dictGet dto "amenities"
  let roomItems ← pyIter (← dictGet (← dictGet dto "images") "rooms")
  let rooms ← roomItems.mapM (parseImage "url" "description")
  let amenItems ← pyIter (← dictGet (← dictGet dto "images") "amenities")
  let amenImgs ← amenItems.mapM (parseImage "url" "description")
  pure
    { id := i
      destination_id := d
      name := n
      description := info
      location := { lat := lat, lng := lng, address := addr, city := PyVal.pystr "", country := PyVal.pystr "" }
      amenities := { general := PyVal.pylist [], room := amen }
      images := { rooms := PyVal.pylist rooms, site := PyVal.pylist [], amenities := PyVal.pylist amenImgs }
      booking_conditions := PyVal.pylist [] }

/-- Translated from `Paperflies.parse`. -/
def Paperflies.parse (dto : PyVal) : Except PyError Hotel := do
  let i ← dictGet dto "hotel_id"
  let d ← dictGet dto "destination_id"
  let n ← dictGet dto "hotel_name"
  let det ← dictGet dto "details"
  let addr ← dictGet (← dictGet dto "location") "address"
  let country ← dictGet (← dictGet dto "location") "country"
  let g ← dictGet (← dictGet dto "amenities") "general"
  let r ← dictGet (← dictGet dto "amenities") "room"
  let roomItems ← pyIter (← dictGet (← dictGet dto "images") "rooms")
  let rooms ← roomItems.mapM (parseImage "link" "caption")
  let siteItems ← pyIter (← dictGet (← dictGet dto "images") "site")
  let siteImgs ← siteItems.mapM (parseImage "link" "caption")
  let bc ← dictGet dto "booking_conditions"
  pure
    { id := i
      destination_id := d
      name := n
      description := det
      location := { lat := PyVal.pystr "", lng := PyVal.pystr "", address := addr, city := PyVal.pystr "", country := country }
      amenities := { general := g, room := r }
      images := { rooms := PyVal.pylist rooms, site := PyVal.pylist siteImgs, amenities := PyVal.pylist [] }
      booking_conditions := bc }

/-- Enumeration of the canonical fields of a `Hotel`. -/
inductive HField : Type where
  | idF : HField
  | destF : HField
  | nameF : HField
  | descF : HField
  | latF : HField
  | lngF : HField
  | addressF : HField
  | cityF : HField
  | countryF : HField
  | generalF : HField
  | roomF : HField
  | imgRoomsF : HField
  | imgSiteF : HField
  | imgAmenF : HField
  | bookF : HField
  deriving DecidableEq

/-- Value of a canonical field of a hotel. -/
def getField : HField → Hotel → PyVal
  | .idF, h => h.id
  | .destF, h => h.destination_id
  | .nameF, h => h.name
  | .descF, h => h.description
  | .latF, h => h.location.lat
  | .lngF, h => h.location.lng
  | .addressF, h => h.location.address
  | .cityF, h => h.location.city
  | .countryF, h => h.location.country
  | .generalF, h => h.amenities.general
  | .roomF, h => h.amenities.room
  | .imgRoomsF, h => h.images.rooms
  | .imgSiteF, h => h.images.site
  | .imgAmenF, h => h.images.amenities
  | .bookF, h => h.booking_conditions

/-- Kind (string / numeric / list) of each canonical field, following the
data model in the specification. -/
def kindOf : HField → FieldKind
  | .idF => .strF
  | .destF => .strF
  | .nameF => .strF
  | .descF => .strF
  | .latF => .numF
  | .lngF => .numF
  | .addressF => .strF
  | .cityF => .strF
  | .countryF => .strF
  | .generalF => .listF
  | .roomF => .listF
  | .imgRoomsF => .listF
  | .imgSiteF => .listF
  | .imgAmenF => .listF
  | .bookF => .listF

/-- Python rendering `str(e)` of an interpreter error: a `KeyError` prints
the repr of its missing key; the `TypeError` text is not modelled. -/
def pyErrorMsg : PyError → String
  | PyError.keyError k => pyReprStr k
  | PyError.typeError => ""

/-- Raw-record keys the Acme adapter requires, in evaluation order. -/
def acmeKeys : List String :=
  ["Id", "DestinationId", "Name", "Description", "Latitude", "Longitude",
   "Address", "City", "Country", "Facilities"]

/-- Builder for the concrete hotels the witnesses use: key and text fields
as given, every other field an empty placeholder. -/
def sampleHotel (i d n desc : PyVal) : Hotel :=
  { id := i
    destination_id := d
    name := n
    description := desc
    location := { lat := PyVal.pynone, lng := PyVal.pynone, address := PyVal.pynone,
                  city := PyVal.pynone, country := PyVal.pynone }
    amenities := { general := PyVal.pylist [], room := PyVal.pylist [] }
    images := { rooms := PyVal.pylist [], site := PyVal.pylist [], amenities := PyVal.pylist [] }
    booking_conditions := PyVal.pylist [] }

/-- Sample hotel with key `("A", "D1")`. -/
def hotelA : Hotel := sampleHotel (PyVal.pystr "A") (PyVal.pystr "D1") (PyVal.pystr "Alpha") PyVal.pynone

/-- Record with the same key as `hotelA` and an absent (`None`) name. -/
def hotelAnil : Hotel := sampleHotel (PyVal.pystr "A") (PyVal.pystr "D1") PyVal.pynone PyVal.pynone

/-- Second record with the same key as `hotelA` and a longer name. -/
def hotelA2 : Hotel := sampleHotel (PyVal.pystr "A") (PyVal.pystr "D1") (PyVal.pystr "Alphonse Hotel") (PyVal.pystr "desc")

/-- Variant of `hotelA` differing only in its description. -/
def hotelAd : Hotel := sampleHotel (PyVal.pystr "A") (PyVal.pystr "D1") (PyVal.pystr "Alpha") (PyVal.pystr "other words")

/-- Sample hotel with key `("B", "D2")`. -/
def hotelB : Hotel := sampleHotel (PyVal.pystr "B") (PyVal.pystr "D2") (PyVal.pystr "Beta") PyVal.pynone

/-- Sample hotel with key `("C", "D1")`. -/
def hotelC : Hotel := sampleHotel (PyVal.pystr "C") (PyVal.pystr "D1") (PyVal.pystr "Gamma") PyVal.pynone

/-- Fold of `hotelA2` into `hotelA`. -/
def mergedA : Hotel := mergeHotel hotelA hotelA2

/-- A well-formed Acme raw record. -/
def dtoAcme : PyVal :=
  PyVal.pydict
    [("Id", PyVal.pystr "a1"), ("DestinationId", PyVal.pystr "d1"),
     ("Name", PyVal.pystr "n"), ("Description", PyVal.pystr "ds"),
     ("Latitude", PyVal.pynum 1), ("Longitude", PyVal.pynum 2),
     ("Address", PyVal.pystr "ad"), ("City", PyVal.pystr "c"),
     ("Country", PyVal.pystr "co"), ("Facilities", PyVal.pylist [PyVal.pystr "Pool"])]

/-- The hotel `Acme.parse` yields on `dtoAcme`. -/
def acmeHotel : Hotel :=
  { id := PyVal.pystr "a1"
    destination_id := PyVal.pystr "d1"
    name := PyVal.pystr "n"
    description := PyVal.pystr "ds"
    location := { lat := PyVal.pynum 1, lng := PyVal.pynum 2, address := PyVal.pystr "ad",
                  city := PyVal.pystr "c", country := PyVal.pystr "co" }
    amenities := { general := PyVal.pylist [PyVal.pystr "Pool"], room := PyVal.pylist [] }
    images := { rooms := PyVal.pylist [], site := PyVal.pylist [], amenities := PyVal.pylist [] }
    booking_conditions := PyVal.pylist [] }

/-- A well-formed Patagonia raw record. -/
def dtoPata : PyVal :=
  PyVal.pydict
    [("id", PyVal.pystr "p1"), ("destination", PyVal.pystr "d1"),
     ("name", PyVal.pystr "n"), ("info", PyVal.pystr "i"),
     ("lat", PyVal.pynum 1), ("lng", PyVal.pynum 2), ("address", PyVal.pystr "ad"),
     ("amenities", PyVal.pylist [PyVal.pystr "Tv"]),
     ("images", PyVal.pydict [("rooms", PyVal.pylist []), ("amenities", PyVal.pylist [])])]

/-- The hotel `Patagonia.parse` yields on `dtoPata`. -/
def pataHotel : Hotel :=
  { id := PyVal.pystr "p1"
    destination_id := PyVal.pystr "d1"
    name := PyVal.pystr "n"
    description := PyVal.pystr "i"
    location := { lat := PyVal.pynum 1, lng := PyVal.pynum 2, address := PyVal.pystr "ad",
                  city := PyVal.pystr "", country := PyVal.pystr "" }
    amenities := { general := PyVal.pylist [], room := PyVal.pylist [PyVal.pystr "Tv"] }
    images := { rooms := PyVal.pylist [], site := PyVal.pylist [], amenities := PyVal.pylist [] }
    booking_conditions := PyVal.pylist [] }

/-- A well-formed Paperflies raw record whose amenities carry both a
non-empty general list and a non-empty room list. -/
def dtoPaper : PyVal :=
  PyVal.pydict
    [("hotel_id", PyVal.pystr "h1"), ("destination_id", PyVal.pystr "d1"),
     ("hotel_name", PyVal.pystr "n"), ("details", PyVal.pystr "dd"),
     ("location", PyVal.pydict [("address", PyVal.pystr "ad"), ("country", PyVal.pystr "co")]),
     ("amenities", PyVal.pydict [("general", PyVal.pylist [PyVal.pystr "Pool"]),
                                 ("room", PyVal.pylist [PyVal.pystr "Tv"])]),
     ("images", PyVal.pydict [("rooms", PyVal.pylist []), ("site", PyVal.pylist [])]),
     ("booking_conditions", PyVal.pylist [PyVal.pystr "b"])]

/-- The hotel `Paperflies.parse` yields on `dtoPaper`. -/
def paperHotel : Hotel :=
  { id := PyVal.pystr "h1"
    destination_id := PyVal.pystr "d1"
    name := PyVal.pystr "n"
    description := PyVal.pystr "dd"
    location := { lat := PyVal.pystr "", lng := PyVal.pystr "", address := PyVal.pystr "ad",
                  city := PyVal.pystr "", country := PyVal.pystr "co" }
    amenities := { general := PyVal.pylist [PyVal.pystr "Pool"], room := PyVal.pylist [PyVal.pystr "Tv"] }
    images := { rooms := PyVal.pylist [], site := PyVal.pylist [], amenities := PyVal.pylist [] }
    booking_conditions := PyVal.pylist [PyVal.pystr "b"] }

/-- An Acme raw record missing the required key `Id`. -/
def dtoMissingId : PyVal := PyVal.pydict [("DestinationId", PyVal.pystr "d")]

/-- Length of a packed character list. -/
theorem stringMk_length (l : List Char) : (String.mk l).length = l.length := rfl

/-- A non-empty string has positive length. -/
theorem string_length_pos_of_ne (s : String) (h : s ≠ "") : 0 < s.length := by
  cases s with
  | mk d =>
    cases d with
    | nil => exact absurd rfl h
    | cons c cs => simp [String.length]

/-- The digit accumulator never shrinks. -/
theorem natDigitsAux_le (fuel : Nat) : ∀ n acc, acc.length ≤ (natDigitsAux fuel n acc).length := by
  induction fuel with
  | zero => intro n acc; simp [natDigitsAux]
  | succ f ih =>
    intro n acc
    simp only [natDigitsAux]
    split
    · simp
    · exact le_trans (by simp) (ih (n / 10) (Nat.digitChar (n % 10) :: acc))

/-- Decimal renderings of naturals are non-empty. -/
theorem natStr_pos (n : Nat) : 0 < (natStr n).length := by
  unfold natStr
  rw [stringMk_length]
  simp only [natDigitsAux]
  split
  · simp
  · exact lt_of_lt_of_le (by simp) (natDigitsAux_le n (n / 10) [Nat.digitChar (n % 10)])

/-- Decimal renderings of integers are non-empty. -/
theorem intStr_pos (n : Int) : 0 < (intStr n).length := by
  cases n with
  | ofNat m => exact natStr_pos m
  | negSucc m =>
    simp only [intStr, String.length_append]
    have := natStr_pos (m + 1)
    omega

/-- A Python string repr ends and starts with a quote, so is at least two
characters long. -/
theorem pyReprStr_two_le (s : String) : 2 ≤ (pyReprStr s).length := by
  unfold pyReprStr
  rw [stringMk_length]
  simp

/-- Every value repr is non-empty. -/
theorem pyRepr_pos (v : PyVal) : 1 ≤ (pyRepr v).length := by
  cases v with
  | pynone => decide
  | pystr s =>
    have := pyReprStr_two_le s
    simp only [pyRepr]
    omega
  | pynum n =>
    have := intStr_pos n
    simp only [pyRepr]
    omega
  | pylist xs =>
    have e1 : "[".length = 1 := rfl
    have e2 : "]".length = 1 := rfl
    simp only [pyRepr, String.length_append]
    omega
  | pydict es =>
    have e1 : "\x7b".length = 1 := rfl
    have e2 : "\x7d".length = 1 := rfl
    simp only [pyRepr, String.length_append]
    omega
  | pyimage l d =>
    have e1 : "Image(link=".length = 11 := rfl
    simp only [pyRepr, String.length_append]
    omega

/-- The rendered element sequence of a non-empty list is non-empty. -/
theorem pyReprSeq_cons_pos (x : PyVal) (xs : List PyVal) : 1 ≤ (pyReprSeq (x :: xs)).length := by
  cases xs with
  | nil =>
    simp only [pyReprSeq]
    exact pyRepr_pos x
  | cons w vs =>
    simp only [pyReprSeq, String.length_append]
    have := pyRepr_pos x
    omega

/-- A non-empty list renders to at least three characters. -/
theorem pyStr_pylist_cons_ge (x : PyVal) (xs : List PyVal) : 3 ≤ (pyStr (PyVal.pylist (x :: xs))).length := by
  have h := pyReprSeq_cons_pos x xs
  have e1 : "[".length = 1 := rfl
  have e2 : "]".length = 1 := rfl
  simp only [pyStr, pyRepr, String.length_append]
  omega

/-- The empty list renders to exactly two characters. -/
theorem pyStr_pylist_nil : (pyStr (PyVal.pylist [])).length = 2 := by decide

/-- The field merge rule always returns one of its two arguments. -/
theorem merge_value_cases (a b : PyVal) : merge_value a b = a ∨ merge_value a b = b := by
  unfold merge_value
  split_ifs with h1 h2 h3 h4
  · exact Or.inl h1.1.symm
  · exact Or.inr rfl
  · exact Or.inl rfl
  · exact Or.inl rfl
  · exact Or.inr rfl

/-- A `None` accumulator loses to any non-`None` incoming value. -/
theorem merge_value_none_left (b : PyVal) (h : b ≠ PyVal.pynone) : merge_value PyVal.pynone b = b := by
  unfold merge_value
  rw [if_neg (fun hh => h hh.2), if_pos rfl]

/-- A `None` incoming value loses to any non-`None` accumulator. -/
theorem merge_value_none_right (a : PyVal) (h : a ≠ PyVal.pynone) : merge_value a PyVal.pynone = a := by
  unfold merge_value
  rw [if_neg (fun hh => h hh.1), if_neg h, if_pos rfl]

/-- Between two non-`None` values, a strictly longer rendering on the right
wins. -/
theorem merge_value_snd_longer (a b : PyVal) (ha : a ≠ PyVal.pynone) (hb : b ≠ PyVal.pynone)
    (h : (pyStr a).length < (pyStr b).length) : merge_value a b = b := by
  unfold merge_value
  rw [if_neg (fun hh => ha hh.1), if_neg ha, if_neg hb, if_neg (by omega)]

/-- Between two non-`None` values, the left argument wins when its rendering
is at least as long. -/
theorem merge_value_fst_ge (a b : PyVal) (ha : a ≠ PyVal.pynone) (hb : b ≠ PyVal.pynone)
    (h : (pyStr b).length ≤ (pyStr a).length) : merge_value a b = a := by
  unfold merge_value
  rw [if_neg (fun hh => ha hh.1), if_neg ha, if_neg hb, if_pos (by omega)]

/-- The fold never touches the accumulator id. -/
theorem mergeHotel_id (a b : Hotel) : (mergeHotel a b).id = a.id := rfl

/-- The fold never touches the accumulator destination id. -/
theorem mergeHotel_dest (a b : Hotel) : (mergeHotel a b).destination_id = a.destination_id := rfl

/-- Characterization of the fold: every canonical field other than the key
fields is the field merge of the corresponding original fields. -/
theorem getField_mergeHotel (f : HField) (a b : Hotel) (h1 : f ≠ HField.idF)
    (h2 : f ≠ HField.destF) :
    getField f (mergeHotel a b) = merge_value (getField f a) (getField f b) := by
  cases f
  · exact absurd rfl h1
  · exact absurd rfl h2
  all_goals rfl

/-- Absent and present are mutually exclusive for every field kind. -/
theorem absent_present_contra (k : FieldKind) (v : PyVal) (ha : absentVal k v = true)
    (hb : presentVal k v = true) : False := by
  cases k <;> cases v <;> simp_all [absentVal, presentVal]

/-- Core of the absence-never-wins property at the level of the field merge
rule: a present value beats an absent one in either argument order. -/
theorem mv_absent_present (k : FieldKind) (a b : PyVal) (ha : absentVal k a = true)
    (hb : presentVal k b = true) : merge_value a b = b ∧ merge_value b a = b := by
  cases k
  case strF =>
    cases b <;> simp [presentVal] at hb
    rename_i t
    have hbn : PyVal.pystr t ≠ PyVal.pynone := by simp
    have hlen : 0 < (pyStr (PyVal.pystr t)).length := by
      simpa [pyStr] using string_length_pos_of_ne t hb
    cases a <;> simp [absentVal] at ha
    · exact ⟨merge_value_none_left _ hbn, merge_value_none_right _ hbn⟩
    · rename_i s
      subst ha
      have han : PyVal.pystr "" ≠ PyVal.pynone := by simp
      refine ⟨merge_value_snd_longer _ _ han hbn ?_, merge_value_fst_ge _ _ hbn han ?_⟩
      · simpa [pyStr] using hlen
      · simp [pyStr]
  case numF =>
    cases b <;> simp [presentVal] at hb
    rename_i n
    have hbn : PyVal.pynum n ≠ PyVal.pynone := by simp
    have hlen : 0 < (pyStr (PyVal.pynum n)).length := by
      simpa [pyStr, pyRepr] using intStr_pos n
    cases a <;> simp [absentVal] at ha
    · exact ⟨merge_value_none_left _ hbn, merge_value_none_right _ hbn⟩
    · rename_i s
      subst ha
      have han : PyVal.pystr "" ≠ PyVal.pynone := by simp
      refine ⟨merge_value_snd_longer _ _ han hbn ?_, merge_value_fst_ge _ _ hbn han ?_⟩
      · simpa [pyStr] using hlen
      · simp [pyStr]
  case listF =>
    cases b <;> simp [presentVal] at hb
    rename_i ys
    cases ys with
    | nil => simp at hb
    | cons y ys2 =>
      have hbn : PyVal.pylist (y :: ys2) ≠ PyVal.pynone := by simp
      have hlen := pyStr_pylist_cons_ge y ys2
      cases a <;> simp [absentVal] at ha
      · exact ⟨merge_value_none_left _ hbn, merge_value_none_right _ hbn⟩
      · rename_i zs
        subst ha
        have han : PyVal.pylist [] ≠ PyVal.pynone := by simp
        have h2 := pyStr_pylist_nil
        refine ⟨merge_value_snd_longer _ _ han hbn (by omega),
          merge_value_fst_ge _ _ hbn han (by omega)⟩

/-- C1: for every pair of field values, `merge_value` returns the absent
value when both are absent, the present one when exactly one is absent,
and, when both are present, whichever has the longer rendered text with
ties keeping the accumulator value — i.e. it coincides with the
specification rule `mergeValueSpec`, uniformly for every value shape. -/
theorem merge_value_matches_spec (a b : PyVal) : merge_value a b = mergeValueSpec a b := by
  unfold merge_value mergeValueSpec
  by_cases h1 : a = PyVal.pynone ∧ b = PyVal.pynone
  · simp [h1]
  · rw [if_neg h1, if_neg h1]
    by_cases h2 : a = PyVal.pynone
    · rw [if_pos h2, if_pos h2]
    · rw [if_neg h2, if_neg h2]
      by_cases h3 : b = PyVal.pynone
      · rw [if_pos h3, if_pos h3]
      · rw [if_neg h3, if_neg h3]
        by_cases h4 : (pyStr a).length ≥ (pyStr b).length
        · rw [if_pos h4, if_neg (by omega)]
        · rw [if_neg h4, if_pos (by omega)]

/-- C3: for every canonical field and every pair of hotels sharing a merge
key, when one side holds an absent (null or empty-equivalent) value and the
other a present one, the fold keeps the present value in either arrival
order — absence never overwrites presence. -/
theorem absence_never_wins (a b : Hotel) (f : HField) (hkey : mergeKey a = mergeKey b)
    (ha : absentVal (kindOf f) (getField f a) = true)
    (hb : presentVal (kindOf f) (getField f b) = true) :
    getField f (mergeHotel a b) = getField f b ∧ getField f (mergeHotel b a) = getField f b := by
  simp only [mergeKey, Prod.mk.injEq] at hkey
  by_cases h1 : f = HField.idF
  · subst h1
    rw [show getField HField.idF a = getField HField.idF b from hkey.1] at ha
    exact (absent_present_contra _ _ ha hb).elim
  · by_cases h2 : f = HField.destF
    · subst h2
      rw [show getField HField.destF a = getField HField.destF b from hkey.2] at ha
      exact (absent_present_contra _ _ ha hb).elim
    · rw [getField_mergeHotel f a b h1 h2, getField_mergeHotel f b a h1 h2]
      exact mv_absent_present _ _ _ ha hb

/-- Witness for C3 at a concrete pair: an absent name never overwrites the
present name `Alpha`, in either order. -/
theorem absence_never_wins_witness :
    getField HField.nameF (mergeHotel hotelAnil hotelA) = getField HField.nameF hotelA ∧
    getField HField.nameF (mergeHotel hotelA hotelAnil) = getField HField.nameF hotelA :=
  absence_never_wins hotelAnil hotelA HField.nameF (by decide) (by decide) (by decide)

/-- C8: each canonical field of the fold result depends only on the
corresponding field of the two inputs — changing any other field of either
record leaves it unchanged. -/
theorem merge_field_frame (a a2 b b2 : Hotel) (f : HField)
    (ha : getField f a = getField f a2) (hb : getField f b = getField f b2) :
    getField f (mergeHotel a b) = getField f (mergeHotel a2 b2) := by
  by_cases h1 : f = HField.idF
  · subst h1
    simp only [getField, mergeHotel_id]
    exact ha
  · by_cases h2 : f = HField.destF
    · subst h2
      simp only [getField, mergeHotel_dest]
      exact ha
    · rw [getField_mergeHotel f a b h1 h2, getField_mergeHotel f a2 b2 h1 h2, ha, hb]

/-- Witness for C8 at a concrete quadruple: two accumulators differing only
in their description yield the same merged name. -/
theorem merge_field_frame_witness :
    getField HField.nameF (mergeHotel hotelA hotelB) =
      getField HField.nameF (mergeHotel hotelAd hotelB) :=
  merge_field_frame hotelA hotelAd hotelB hotelB HField.nameF (by decide) rfl

/-- A failed mapping lookup means the key is not among the stored keys. -/
theorem mhLookup_none_iff (m : List ((PyVal × PyVal) × Hotel)) (k : PyVal × PyVal) :
    mhLookup m k = none ↔ k ∉ m.map Prod.fst := by
  induction m with
  | nil => simp [mhLookup]
  | cons p rest ih =>
    obtain ⟨k1, v1⟩ := p
    by_cases h : k1 = k
    · subst h
      simp [mhLookup]
    · rw [mhLookup, if_neg h, ih]
      simp only [List.map_cons, List.mem_cons]
      constructor
      · intro hk hor
        rcases hor with hor | hor
        · exact h hor.symm
        · exact hk hor
      · intro hk hmem
        exact hk (Or.inr hmem)

/-- Updating a stored value keeps the key sequence unchanged. -/
theorem mhUpdate_map_fst (m : List ((PyVal × PyVal) × Hotel)) (k : PyVal × PyVal) (h : Hotel) :
    (mhUpdate m k h).map Prod.fst = m.map Prod.fst := by
  induction m with
  | nil => rfl
  | cons p rest ih =>
    obtain ⟨k1, v1⟩ := p
    by_cases hh : k1 = k <;> simp [mhUpdate, hh, ih]

/-- Every entry of an updated mapping is an old entry or the new binding. -/
theorem mhUpdate_mem (m : List ((PyVal × PyVal) × Hotel)) (k : PyVal × PyVal) (h : Hotel)
    (p : (PyVal × PyVal) × Hotel) (hp : p ∈ mhUpdate m k h) : p ∈ m ∨ p = (k, h) := by
  induction m with
  | nil => simp [mhUpdate] at hp
  | cons q rest ih =>
    obtain ⟨k1, v1⟩ := q
    by_cases hh : k1 = k
    · subst hh
      rw [mhUpdate, if_pos rfl] at hp
      rcases List.mem_cons.mp hp with h1 | h1
      · exact Or.inr h1
      · exact Or.inl (List.mem_cons_of_mem _ h1)
    · rw [mhUpdate, if_neg hh] at hp
      rcases List.mem_cons.mp hp with h1 | h1
      · exact Or.inl (h1 ▸ List.mem_cons_self _ _)
      · rcases ih h1 with h2 | h2
        · exact Or.inl (List.mem_cons_of_mem _ h2)
        · exact Or.inr h2

/-- A successful lookup returns a stored binding. -/
theorem mhLookup_mem (m : List ((PyVal × PyVal) × Hotel)) (k : PyVal × PyVal) (v : Hotel)
    (h : mhLookup m k = some v) : (k, v) ∈ m := by
  induction m with
  | nil => simp [mhLookup] at h
  | cons q rest ih =>
    obtain ⟨k1, v1⟩ := q
    by_cases hh : k1 = k
    · subst hh
      rw [mhLookup, if_pos rfl] at h
      obtain rfl : v1 = v := by injection h
      exact List.mem_cons_self _ _
    · rw [mhLookup, if_neg hh] at h
      exact List.mem_cons_of_mem _ (ih h)

/-- One merge step keeps the key-consistency invariant: every stored hotel
sits under its own merge key. -/
theorem mergeStep_kc (m : List ((PyVal × PyVal) × Hotel)) (x : Hotel)
    (hkc : ∀ p ∈ m, mergeKey p.2 = p.1) :
    ∀ p ∈ mergeStep m x, mergeKey p.2 = p.1 := by
  intro p hp
  unfold mergeStep at hp
  cases hl : mhLookup m (mergeKey x) with
  | none =>
    rw [hl] at hp
    rcases List.mem_append.mp hp with h | h
    · exact hkc p h
    · simp at h
      subst h
      rfl
  | some e =>
    rw [hl] at hp
    rcases mhUpdate_mem _ _ _ p hp with h | h
    · exact hkc p h
    · subst h
      have he : mergeKey e = mergeKey x := hkc (mergeKey x, e) (mhLookup_mem _ _ _ hl)
      simpa [mergeKey, mergeHotel_id, mergeHotel_dest] using he

/-- One merge step keeps the stored keys duplicate-free. -/
theorem mergeStep_nodup (m : List ((PyVal × PyVal) × Hotel)) (x : Hotel)
    (hnd : (m.map Prod.fst).Nodup) : ((mergeStep m x).map Prod.fst).Nodup := by
  unfold mergeStep
  cases hl : mhLookup m (mergeKey x) with
  | none =>
    have hk : mergeKey x ∉ m.map Prod.fst := (mhLookup_none_iff _ _).mp hl
    rw [List.map_append, List.nodup_append]
    refine ⟨hnd, by simp, ?_⟩
    intro a ha hb
    simp at hb
    subst hb
    exact hk ha
  | some e =>
    rw [mhUpdate_map_fst]
    exact hnd

/-- The whole fold keeps key consistency and duplicate-free keys. -/
theorem foldl_mergeStep_kc_nodup (hotels : List Hotel) :
    ∀ m, (∀ p ∈ m, mergeKey p.2 = p.1) → (m.map Prod.fst).Nodup →
    (∀ p ∈ hotels.foldl mergeStep m, mergeKey p.2 = p.1) ∧
      ((hotels.foldl mergeStep m).map Prod.fst).Nodup := by
  induction hotels with
  | nil => exact fun m h1 h2 => ⟨h1, h2⟩
  | cons x hs ih =>
    intro m h1 h2
    simp only [List.foldl_cons]
    exact ih _ (mergeStep_kc m x h1) (mergeStep_nodup m x h2)

/-- C2: for every input sequence of hotel records, no two entries of the
catalog produced by `merge_and_save` share the composite
`(id, destination_id)` merge key. -/
theorem merge_and_save_unique (hotels : List Hotel) :
    (merge_and_save hotels).Pairwise
      (fun a b => ¬ (a.id = b.id ∧ a.destination_id = b.destination_id)) := by
  obtain ⟨hkc, hnd⟩ := foldl_mergeStep_kc_nodup hotels [] (by simp) (by simp)
  unfold merge_and_save
  rw [List.pairwise_map]
  unfold List.Nodup at hnd
  rw [List.pairwise_map] at hnd
  refine hnd.imp_of_mem ?_
  intro p q hp hq hne hcontra
  apply hne
  rw [← hkc p hp, ← hkc q hq]
  simp [mergeKey, hcontra.1, hcontra.2]

/-- The fold keeps, in each canonical field, the value of one of its two
inputs. -/
theorem mergeHotel_field_cases (f : HField) (a b : Hotel) :
    getField f (mergeHotel a b) = getField f a ∨
      getField f (mergeHotel a b) = getField f b := by
  by_cases h1 : f = HField.idF
  · subst h1
    exact Or.inl (by simp [getField, mergeHotel_id])
  · by_cases h2 : f = HField.destF
    · subst h2
      exact Or.inl (by simp [getField, mergeHotel_dest])
    · rw [getField_mergeHotel f a b h1 h2]
      exact merge_value_cases _ _

/-- Every stored field value traces back to some already-processed input
record with the same key fields. -/
theorem foldl_mergeStep_sources (hotels : List Hotel) :
    ∀ (m : List ((PyVal × PyVal) × Hotel)) (src : List Hotel),
    (∀ p ∈ m, mergeKey p.2 = p.1) →
    (∀ p ∈ m, ∀ f : HField, ∃ g, g ∈ src ∧ g.id = p.2.id ∧
      g.destination_id = p.2.destination_id ∧ getField f g = getField f p.2) →
    ∀ p ∈ hotels.foldl mergeStep m, ∀ f : HField, ∃ g, g ∈ src ++ hotels ∧ g.id = p.2.id ∧
      g.destination_id = p.2.destination_id ∧ getField f g = getField f p.2 := by
  induction hotels with
  | nil =>
    intro m src hkc hsrc p hp f
    simpa using hsrc p hp f
  | cons x hs ih =>
    intro m src hkc hsrc p hp f
    simp only [List.foldl_cons] at hp
    have key1 : ∀ p ∈ mergeStep m x, mergeKey p.2 = p.1 := mergeStep_kc m x hkc
    have key2 : ∀ q ∈ mergeStep m x, ∀ f2 : HField, ∃ g, g ∈ src ++ [x] ∧ g.id = q.2.id ∧
        g.destination_id = q.2.destination_id ∧ getField f2 g = getField f2 q.2 := by
      intro q hq f2
      unfold mergeStep at hq
      cases hl : mhLookup m (mergeKey x) with
      | none =>
        rw [hl] at hq
        rcases List.mem_append.mp hq with h | h
        · obtain ⟨g, hg, e1, e2, e3⟩ := hsrc q h f2
          exact ⟨g, List.mem_append_left _ hg, e1, e2, e3⟩
        · simp at h
          subst h
          exact ⟨x, List.mem_append_right _ (by simp), rfl, rfl, rfl⟩
      | some e =>
        rw [hl] at hq
        rcases mhUpdate_mem _ _ _ q hq with h | h
        · obtain ⟨g, hg, e1, e2, e3⟩ := hsrc q h f2
          exact ⟨g, List.mem_append_left _ hg, e1, e2, e3⟩
        · subst h
          have hme : (mergeKey x, e) ∈ m := mhLookup_mem _ _ _ hl
          have hek : mergeKey e = mergeKey x := hkc _ hme
          have heid : e.id = x.id ∧ e.destination_id = x.destination_id := by
            simpa [mergeKey, Prod.mk.injEq] using hek
          rcases mergeHotel_field_cases f2 e x with hc | hc
          · obtain ⟨g, hg, e1, e2, e3⟩ := hsrc _ hme f2
            refine ⟨g, List.mem_append_left _ hg, ?_, ?_, ?_⟩
            · rw [mergeHotel_id]
              exact e1
            · rw [mergeHotel_dest]
              exact e2
            · rw [e3, hc]
          · refine ⟨x, List.mem_append_right _ (by simp), ?_, ?_, ?_⟩
            · rw [mergeHotel_id]
              exact heid.1.symm
            · rw [mergeHotel_dest]
              exact heid.2.symm
            · rw [hc]
    have hres := ih (mergeStep m x) (src ++ [x]) key1 key2 p hp f
    simpa [List.append_assoc] using hres

/-- C9: every field value of every catalog entry produced by
`merge_and_save` equals the corresponding field value of at least one input
record carrying the same merge key — the merge only selects among supplied
values. -/
theorem merge_only_selects (hotels : List Hotel) (h : Hotel)
    (hmem : h ∈ merge_and_save hotels) (f : HField) :
    ∃ g, g ∈ hotels ∧ g.id = h.id ∧ g.destination_id = h.destination_id ∧
      getField f g = getField f h := by
  unfold merge_and_save at hmem
  obtain ⟨p, hp, hph⟩ := List.mem_map.mp hmem
  subst hph
  have hres := foldl_mergeStep_sources hotels [] [] (by simp) (by simp) p hp f
  simpa using hres

/-- Witness for C9 at a concrete catalog: the merged entry for key
`("A", "D1")` draws its name from one of the two inputs. -/
theorem merge_only_selects_witness :
    ∃ g, g ∈ [hotelA, hotelA2] ∧ g.id = mergedA.id ∧
      g.destination_id = mergedA.destination_id ∧
      getField HField.nameF g = getField HField.nameF mergedA :=
  merge_only_selects [hotelA, hotelA2] mergedA (by decide) HField.nameF

/-- A comma split always yields at least one piece. -/
theorem pySplit_ne_nil (cs : List Char) : pySplit ',' cs ≠ [] := by
  induction cs with
  | nil => simp [pySplit]
  | cons c rest ih =>
    by_cases h : c = ','
    · simp [pySplit, h]
    · rcases hm : pySplit ',' rest with _ | ⟨t, ts⟩
      · exact absurd hm ih
      · simp [pySplit, h, hm]

/-- The parsed identifier list is empty exactly for the sentinel input. -/
theorem parseIds_eq_nil_iff (s : String) : parseIds s = [] ↔ s = "none" := by
  unfold parseIds
  by_cases h : s = "none"
  · simp [h]
  · rw [if_neg h]
    constructor
    · intro hm
      exact absurd (List.map_eq_nil_iff.mp hm) (pySplit_ne_nil s.data)
    · intro hs
      exact absurd hs h

/-- C4 (amended): `find` returns the full catalog whenever either filter
input is the sentinel `none`; an empty input string is not a sentinel. -/
theorem find_sentinel_short_circuit (data : List Hotel) (hs ds : String)
    (h : hs = "none" ∨ ds = "none") : find data hs ds = data := by
  have hn : parseIds "none" = [] := by simp [parseIds]
  rcases h with rfl | rfl
  · simp [find, hn]
  · simp [find, hn]

/-- Witness for the amended C4: the sentinel on the hotel-id side returns
the whole catalog. -/
theorem find_sentinel_short_circuit_witness : find [hotelA] "none" "D1" = [hotelA] :=
  find_sentinel_short_circuit [hotelA] "none" "D1" (Or.inl rfl)

/-- Counterexample to C4 as stated: an empty filter input does not
short-circuit — it parses to the one-element list holding the empty
identifier, so filtering applies and here returns an empty result instead
of the full one-entry catalog. -/
theorem find_empty_input_filters :
    find [hotelA] "" "D1" = [] ∧ find [hotelA] "" "D1" ≠ [hotelA] := by
  constructor
  · decide
  · decide

/-- C6: with both filter inputs different from the sentinel, `find` keeps
exactly the catalog entries whose rendered id belongs to the parsed
hotel-id list and whose rendered destination id belongs to the parsed
destination-id list, as an order-preserving sublist of the catalog. -/
theorem find_conjunction (data : List Hotel) (hs ds : String)
    (h1 : hs ≠ "none") (h2 : ds ≠ "none") :
    (∀ x, x ∈ find data hs ds ↔
      x ∈ data ∧ pyStr x.id ∈ parseIds hs ∧ pyStr x.destination_id ∈ parseIds ds) ∧
    List.Sublist (find data hs ds) data := by
  have e1 : parseIds hs ≠ [] := fun hh => h1 ((parseIds_eq_nil_iff hs).mp hh)
  have e2 : parseIds ds ≠ [] := fun hh => h2 ((parseIds_eq_nil_iff ds).mp hh)
  have hcond : ¬ ((parseIds hs).length = 0 ∨ (parseIds ds).length = 0) := by
    push_neg
    exact ⟨fun hh => e1 (List.length_eq_zero.mp hh), fun hh => e2 (List.length_eq_zero.mp hh)⟩
  simp only [find]
  rw [if_neg hcond]
  constructor
  · intro x
    rw [List.mem_filter]
    simp
  · exact List.filter_sublist _

/-- Witness for C6 at a concrete catalog: entry `A` (id and destination
both match) is kept, entry `C` (id not listed) is dropped. -/
theorem find_conjunction_witness :
    hotelA ∈ find [hotelA, hotelB, hotelC] "A,B" "D1" ∧
    hotelC ∉ find [hotelA, hotelB, hotelC] "A,B" "D1" := by
  have H := find_conjunction [hotelA, hotelB, hotelC] "A,B" "D1" (by decide) (by decide)
  constructor
  · exact (H.1 hotelA).mpr (by decide)
  · intro hmem
    have hc := (H.1 hotelC).mp hmem
    revert hc
    decide

/-- Unfolding of `intercalate` on a list with at least two pieces. -/
theorem intercalate_cons_of_ne_nil (sep a : List Char) (S : List (List Char)) (h : S ≠ []) :
    List.intercalate sep (a :: S) = a ++ sep ++ List.intercalate sep S := by
  cases S with
  | nil => exact absurd rfl h
  | cons b T =>
    simp only [List.intercalate]
    rw [show List.intersperse sep (a :: b :: T) = a :: sep :: List.intersperse sep (b :: T) from rfl]
    simp [List.flatten_cons, List.append_assoc]

/-- Joining the comma split with commas reconstructs the input verbatim:
the split neither trims nor deduplicates nor drops characters. -/
theorem intercalate_pySplit (cs : List Char) :
    List.intercalate [','] (pySplit ',' cs) = cs := by
  induction cs with
  | nil => rfl
  | cons c rest ih =>
    by_cases h : c = ','
    · subst h
      rw [show pySplit ',' (',' :: rest) = [] :: pySplit ',' rest from by simp [pySplit]]
      rw [intercalate_cons_of_ne_nil _ _ _ (pySplit_ne_nil rest)]
      simp [ih]
    · rcases hm : pySplit ',' rest with _ | ⟨t, ts⟩
      · exact absurd hm (pySplit_ne_nil rest)
      · rw [show pySplit ',' (c :: rest) = (c :: t) :: ts from by simp [pySplit, h, hm]]
        rw [hm] at ih
        cases ts with
        | nil =>
          have ht : t = rest := by simpa [List.intercalate] using ih
          simp [List.intercalate, ht]
        | cons u us =>
          rw [intercalate_cons_of_ne_nil _ _ _ (by simp)]
          rw [intercalate_cons_of_ne_nil _ _ _ (by simp)] at ih
          rw [← ih]
          simp

/-- C10: only the exact string `none` is the no-filter sentinel — the
parsed list is empty iff the input is `none` — and every other input
(including `None` or inputs with whitespace) splits on commas verbatim
into a non-empty list: rejoining the pieces with commas reproduces the
input character-for-character, so nothing is trimmed or deduplicated. -/
theorem sentinel_exact_and_split_verbatim (s : String) :
    (parseIds s = [] ↔ s = "none") ∧
    (s ≠ "none" → parseIds s ≠ [] ∧
      List.intercalate [','] ((parseIds s).map String.data) = s.data) := by
  refine ⟨parseIds_eq_nil_iff s,
    fun h => ⟨fun hh => h ((parseIds_eq_nil_iff s).mp hh), ?_⟩⟩
  unfold parseIds
  rw [if_neg h, List.map_map]
  have hcomp : (String.data ∘ String.mk) = id := funext fun l => rfl
  rw [hcomp, List.map_id]
  exact intercalate_pySplit s.data

/-- Witness for C10 at the concrete input `None`: it is not a sentinel and
splits verbatim. -/
theorem sentinel_exact_witness :
    parseIds "None" ≠ [] ∧
    List.intercalate [','] ((parseIds "None").map String.data) = "None".data :=
  (sentinel_exact_and_split_verbatim "None").2 (by decide)

/-- Binding over `Except`: a successful result factors through a successful
first step. -/
theorem exceptBind_ok {α β : Type} {x : Except PyError α} {f : α → Except PyError β}
    {r : β} (h : (x >>= f) = Except.ok r) :
    ∃ v, x = Except.ok v ∧ f v = Except.ok r := by
  cases x with
  | error e => simp [Bind.bind, Except.bind] at h
  | ok v => exact ⟨v, rfl, h⟩

/-- Subscripting dict entries fails with a `KeyError` on a missing key. -/
theorem dictGet_entries_none (es : List (String × PyVal)) (k : String)
    (h : lookupKey es k = none) :
    dictGet (PyVal.pydict es) k = Except.error (PyError.keyError k) := by
  simp [dictGet, h]

/-- Subscripting dict entries returns the stored value on a present key. -/
theorem dictGet_entries_some (es : List (String × PyVal)) (k : String) (v : PyVal)
    (h : lookupKey es k = some v) : dictGet (PyVal.pydict es) k = Except.ok v := by
  simp [dictGet, h]

/-- C7 (amended): the Acme adapter leaves the room amenities empty and the
Patagonia adapter leaves the general amenities empty on every successfully
parsed raw record; these two adapters each populate at most one of the two
amenity lists. -/
theorem single_list_adapters (dto : PyVal) (h : Hotel) :
    (Acme.parse dto = Except.ok h → h.amenities.room = PyVal.pylist []) ∧
    (Patagonia.parse dto = Except.ok h → h.amenities.general = PyVal.pylist []) := by
  constructor
  · intro hok
    unfold Acme.parse at hok
    repeat obtain ⟨_, -, hok⟩ := exceptBind_ok hok
    simp only [pure, Except.pure, Except.ok.injEq] at hok
    subst hok
    rfl
  · intro hok
    unfold Patagonia.parse at hok
    repeat obtain ⟨_, -, hok⟩ := exceptBind_ok hok
    simp only [pure, Except.pure, Except.ok.injEq] at hok
    subst hok
    rfl

/-- Witness for the amended C7 at concrete raw records of both adapters. -/
theorem single_list_adapters_witness :
    acmeHotel.amenities.room = PyVal.pylist [] ∧
    pataHotel.amenities.general = PyVal.pylist [] :=
  ⟨(single_list_adapters dtoAcme acmeHotel).1 rfl,
   (single_list_adapters dtoPata pataHotel).2 rfl⟩

/-- Counterexample to C7 as stated: the Paperflies adapter populates both
amenity lists from its provider data on a concrete raw record. -/
theorem paperflies_fills_both_lists :
    Paperflies.parse dtoPaper = Except.ok paperHotel ∧
    paperHotel.amenities.general ≠ PyVal.pylist [] ∧
    paperHotel.amenities.room ≠ PyVal.pylist [] := by
  refine ⟨rfl, ?_, ?_⟩
  · decide
  · decide

/-- Reduction of `Except` binding on a failure. -/
theorem ebind_error {α β : Type} (e : PyError) (f : α → Except PyError β) :
    ((Except.error e : Except PyError α) >>= f) = Except.error e := rfl

/-- Reduction of `Except` binding on a success. -/
theorem ebind_ok_eq {α β : Type} (a : α) (f : α → Except PyError β) :
    (Except.ok a >>= f) = f a := rfl

/-- C5 (amended): whenever a raw Acme record lacks one of the keys the
adapter requires, `Acme.parse` fails with a `KeyError` that names a
missing required key (the first one in evaluation order); no
`MalformedInputError` exists and the error does not name the provider. -/
theorem acme_missing_key_fails (es : List (String × PyVal))
    (hmiss : ∃ k, k ∈ acmeKeys ∧ lookupKey es k = none) :
    ∃ k, k ∈ acmeKeys ∧ lookupKey es k = none ∧
      Acme.parse (PyVal.pydict es) = Except.error (PyError.keyError k) := by
  rcases h1 : lookupKey es "Id" with _ | v1
  · exact ⟨"Id", by simp [acmeKeys], h1, by
      simp [Acme.parse, dictGet_entries_none _ _ h1, ebind_error]⟩
  rcases h2 : lookupKey es "DestinationId" with _ | v2
  · exact ⟨"DestinationId", by simp [acmeKeys], h2, by
      simp [Acme.parse, dictGet_entries_some _ _ _ h1, dictGet_entries_none _ _ h2,
        ebind_ok_eq, ebind_error]⟩
  rcases h3 : lookupKey es "Name" with _ | v3
  · exact ⟨"Name", by simp [acmeKeys], h3, by
      simp [Acme.parse, dictGet_entries_some _ _ _ h1, dictGet_entries_some _ _ _ h2,
        dictGet_entries_none _ _ h3, ebind_ok_eq, ebind_error]⟩
  rcases h4 : lookupKey es "Description" with _ | v4
  · exact ⟨"Description", by simp [acmeKeys], h4, by
      simp [Acme.parse, dictGet_entries_some _ _ _ h1, dictGet_entries_some _ _ _ h2,
        dictGet_entries_some _ _ _ h3, dictGet_entries_none _ _ h4, ebind_ok_eq, ebind_error]⟩
  rcases h5 : lookupKey es "Latitude" with _ | v5
  · exact ⟨"Latitude", by simp [acmeKeys], h5, by
      simp [Acme.parse, dictGet_entries_some _ _ _ h1, dictGet_entries_some _ _ _ h2,
        dictGet_entries_some _ _ _ h3, dictGet_entries_some _ _ _ h4,
        dictGet_entries_none _ _ h5, ebind_ok_eq, ebind_error]⟩
  rcases h6 : lookupKey es "Longitude" with _ | v6
  · exact ⟨"Longitude", by simp [acmeKeys], h6, by
      simp [Acme.parse, dictGet_entries_some _ _ _ h1, dictGet_entries_some _ _ _ h2,
        dictGet_entries_some _ _ _ h3, dictGet_entries_some _ _ _ h4,
        dictGet_entries_some _ _ _ h5, dictGet_entries_none _ _ h6, ebind_ok_eq, ebind_error]⟩
  rcases h7 : lookupKey es "Address" with _ | v7
  · exact ⟨"Address", by simp [acmeKeys], h7, by
      simp [Acme.parse, dictGet_entries_some _ _ _ h1, dictGet_entries_some _ _ _ h2,
        dictGet_entries_some _ _ _ h3, dictGet_entries_some _ _ _ h4,
        dictGet_entries_some _ _ _ h5, dictGet_entries_some _ _ _ h6,
        dictGet_entries_none _ _ h7, ebind_ok_eq, ebind_error]⟩
  rcases h8 : lookupKey es "City" with _ | v8
  · exact ⟨"City", by simp [acmeKeys], h8, by
      simp [Acme.parse, dictGet_entries_some _ _ _ h1, dictGet_entries_some _ _ _ h2,
        dictGet_entries_some _ _ _ h3, dictGet_entries_some _ _ _ h4,
        dictGet_entries_some _ _ _ h5, dictGet_entries_some _ _ _ h6,
        dictGet_entries_some _ _ _ h7, dictGet_entries_none _ _ h8, ebind_ok_eq, ebind_error]⟩
  rcases h9 : lookupKey es "Country" with _ | v9
  · exact ⟨"Country", by simp [acmeKeys], h9, by
      simp [Acme.parse, dictGet_entries_some _ _ _ h1, dictGet_entries_some _ _ _ h2,
        dictGet_entries_some _ _ _ h3, dictGet_entries_some _ _ _ h4,
        dictGet_entries_some _ _ _ h5, dictGet_entries_some _ _ _ h6,
        dictGet_entries_some _ _ _ h7, dictGet_entries_some _ _ _ h8,
        dictGet_entries_none _ _ h9, ebind_ok_eq, ebind_error]⟩
  rcases h10 : lookupKey es "Facilities" with _ | v10
  · exact ⟨"Facilities", by simp [acmeKeys], h10, by
      simp [Acme.parse, dictGet_entries_some _ _ _ h1, dictGet_entries_some _ _ _ h2,
        dictGet_entries_some _ _ _ h3, dictGet_entries_some _ _ _ h4,
        dictGet_entries_some _ _ _ h5, dictGet_entries_some _ _ _ h6,
        dictGet_entries_some _ _ _ h7, dictGet_entries_some _ _ _ h8,
        dictGet_entries_some _ _ _ h9, dictGet_entries_none _ _ h10, ebind_ok_eq, ebind_error]⟩
  exfalso
  obtain ⟨k, hk, hnone⟩ := hmiss
  simp [acmeKeys] at hk
  rcases hk with rfl | rfl | rfl | rfl | rfl | rfl | rfl | rfl | rfl | rfl <;> simp_all

/-- Witness for the amended C5: an Acme record holding only
`DestinationId` fails with the `KeyError` for its first missing key. -/
theorem acme_missing_key_fails_witness :
    ∃ k, k ∈ acmeKeys ∧ lookupKey [("DestinationId", PyVal.pystr "d")] k = none ∧
      Acme.parse (PyVal.pydict [("DestinationId", PyVal.pystr "d")]) =
        Except.error (PyError.keyError k) :=
  acme_missing_key_fails [("DestinationId", PyVal.pystr "d")] ⟨"Id", by simp [acmeKeys], rfl⟩

/-- Counterexample to C5 as stated: on a concrete record missing `Id` the
Acme adapter fails with the bare interpreter `KeyError` whose rendered
message is just the repr of the key — no `MalformedInputError` is raised
and the provider name appears nowhere in the error. -/
theorem acme_error_carries_only_key :
    Acme.parse dtoMissingId = Except.error (PyError.keyError "Id") ∧
    ¬ List.IsInfix "Acme".data (pyErrorMsg (PyError.keyError "Id")).data ∧
    ¬ List.IsInfix "acme".data (pyErrorMsg (PyError.keyError "Id")).data := by
  refine ⟨rfl, ?_, ?_⟩
  · decide
  · decide
